import Mathlib

/-!
# Verification of the ccBench layered-configuration engine

Shallow embedding of `src/ccBench.py`: the deep-merge algorithm
(`deep_merge_dict`), the per-file materialization step
(`copy_file_with_json_merge`), and the `__main__` task/variant expansion
and per-task pipeline.  Python dictionaries parsed from JSON/TOML are
modelled as association lists (insertion order preserved, keys unique in
any dict produced by the parsers); a separate heap model captures the
reference semantics of `dict.copy()` / `list.extend` where aliasing
matters.
-/

set_option autoImplicit false

namespace CcBench

/-- A JSON/TOML document value (no floats appear in any claim). -/
inductive J where
  | null
  | bool (b : Bool)
  | num (n : Int)
  | str (s : String)
  | arr (xs : List J)
  | obj (fields : List (String × J))

/-- First value stored under key `k`, mirroring Python `result[key]` /
`key in result` on a dict (keys are unique in real dicts). -/
def findVal {α : Type} : List (String × α) → String → Option α
  | [], _ => none
  | (k', v) :: rest, k => if k' = k then some v else findVal rest k

/-- Python `result[key] = value` on a dict whose key already exists: the value at
the first matching key is replaced in place, order kept. -/
def setKey {α : Type} : List (String × α) → String → α → List (String × α)
  | [], _, _ => []
  | (k', v') :: rest, k, v =>
    if k' = k then (k', v) :: rest else (k', v') :: setKey rest k v

/-- Python `d[key] = value` in full: replace if the key exists, else append
(Python dicts append new keys in insertion order). -/
def setOrAdd {α : Type} (l : List (String × α)) (k : String) (v : α) : List (String × α) :=
  match findVal l k with
  | some _ => setKey l k v
  | none => l ++ [(k, v)]

mutual

/-- One overlay value merged onto a base value, mirroring the body of the
loop in `deep_merge_dict` (ccBench.py lines 30-39): dict/dict recurses,
list/list concatenates, anything else is replaced by the overlay value. -/
def mergeVal : J → J → J
  | .obj b, .obj o => .obj (mergeList b o)
  | .arr b, .arr o => .arr (b ++ o)
  | _, v => v

/-- The loop of `deep_merge_dict` iterating over `overlay.items()` in order, starting
from `result = base.copy()` (ccBench.py lines 26-43), value-level. -/
def mergeList (base : List (String × J)) : List (String × J) → List (String × J)
  | [] => base
  | (k, v) :: rest =>
    mergeList
      (match findVal base k with
       | some bv => setKey base k (mergeVal bv v)
       | none => base ++ [(k, v)])
      rest

end

/-- Value-level semantics of `deep_merge_dict(base, overlay)`. -/
def deep_merge_dict (base overlay : List (String × J)) : List (String × J) :=
  mergeList base overlay

/-!
## Heap model of `deep_merge_dict`

Python dicts and lists are mutable objects accessed by reference;
`result = base.copy()` (line 28) is a shallow copy and
`result[key].extend(value)` (line 34) mutates the list object in place.
To settle the mutation/aliasing claims, we model the heap explicitly:
scalars are immediate, dicts and lists live at addresses.
-/

/-- A Python value: scalar, or a reference to a heap object. -/
inductive PVal where
  | int (n : Int)
  | str (s : String)
  | ref (a : Nat)
  deriving DecidableEq

/-- A heap object: a dict (insertion-ordered, unique keys) or a list. -/
inductive PObj where
  | dict (items : List (String × PVal))
  | list (elems : List PVal)
  deriving DecidableEq

/-- The heap: allocated objects plus the next fresh address. -/
structure Heap where
  objs : List (Nat × PObj)
  next : Nat
  deriving DecidableEq

def readHeap (h : Heap) (a : Nat) : Option PObj :=
  (h.objs.find? (fun p => p.1 == a)).map Prod.snd

def writeHeap (h : Heap) (a : Nat) (o : PObj) : Heap :=
  { h with objs := h.objs.map (fun p => if p.1 = a then (a, o) else p) }

def alloc (h : Heap) (o : PObj) : Heap × Nat :=
  ({ objs := h.objs ++ [(h.next, o)], next := h.next + 1 }, h.next)

/-- Heap-level `deep_merge_dict(base, overlay)` with reference semantics: allocates
`result = base.copy()` (a SHALLOW copy: the new dict holds the same
references as `base`), then runs the `for key, value in overlay.items()`
loop on the mutable result dict, threading the heap.  `fuel` bounds the
recursion depth (recursion happens only on nested dict/dict keys);
`none` means out of fuel or a type error (the function is only ever
called on two dicts). -/
def pyDeepMerge : Nat → Heap → Nat → Nat → Option (Heap × Nat)
  | 0, _, _, _ => none
  | fuel + 1, h, baseAddr, overlayAddr =>
    match readHeap h baseAddr, readHeap h overlayAddr with
    | some (.dict bitems), some (.dict oitems) =>
      match alloc h (.dict bitems) with
      | (h1, res) =>
        (oitems.foldlM
            (fun (hcur : Heap) (kv : String × PVal) =>
              match readHeap hcur res with
              | some (.dict ritems) =>
                match findVal ritems kv.1 with
                | some cur =>
                  match cur, kv.2 with
                  | .ref a, .ref b =>
                    match readHeap hcur a, readHeap hcur b with
                    | some (.dict _), some (.dict _) =>
                      -- both dicts:
                      -- result[key] = deep_merge_dict(result[key], value)
                      match pyDeepMerge fuel hcur a b with
                      | some (h2, m) =>
                        match readHeap h2 res with
                        | some (.dict ritems2) =>
                          some (writeHeap h2 res (.dict (setKey ritems2 kv.1 (.ref m))))
                        | _ => none
                      | none => none
                    | some (.list xs), some (.list ys) =>
                      -- both lists: result[key].extend(value) mutates the
                      -- object at `a` in place -- which base still references
                      some (writeHeap hcur a (.list (xs ++ ys)))
                    | _, _ =>
                      -- overwrite: result[key] = value
                      some (writeHeap hcur res (.dict (setKey ritems kv.1 kv.2)))
                  | _, _ => some (writeHeap hcur res (.dict (setKey ritems kv.1 kv.2)))
                | none =>
                  -- key not in result: result[key] = value appends
                  some (writeHeap hcur res (.dict (ritems ++ [kv])))
              | _ => none)
            h1).map (fun hfin => (hfin, res))
    | _, _ => none

/-- Read back the (immutable) document value a `PVal` denotes in a heap,
following references; `fuel` bounds the depth. -/
def denotePVal : Nat → Heap → PVal → Option J
  | _, _, .int n => some (.num n)
  | _, _, .str s => some (.str s)
  | 0, _, .ref _ => none
  | fuel + 1, h, .ref a =>
    match readHeap h a with
    | some (.list xs) => (xs.mapM (denotePVal fuel h)).map .arr
    | some (.dict items) =>
      (items.mapM (fun p => (denotePVal fuel h p.2).map (fun j => (p.1, j)))).map .obj
    | none => none

/-!
## `copy_file_with_json_merge`: the structured-file branch

File contents are modelled up to parsing: `parsed doc` stands for bytes
that parse (as JSON) to `doc`, `malformed bytes` for bytes that raise
`json.JSONDecodeError`.  Exceptions of the Python code are explicit.
-/

/-- Python exceptions that can surface in the merge path. -/
inductive PyErr where
  | jsonDecode  -- json.JSONDecodeError
  | keyError    -- KeyError (listed in the except clause, line 77)
  | attrError   -- AttributeError (e.g. list has no attribute items/copy)
  | typeError   -- TypeError (e.g. list indices must be integers)
  deriving DecidableEq

/-- Content of a file on disk, as far as the JSON codec is concerned. -/
inductive FileContent where
  | parsed (doc : J)
  | malformed (bytes : String)

/-- Parsing via `json.load`: succeeds on well-formed bytes, raises `JSONDecodeError`
otherwise. -/
def parseJson : FileContent → Except PyErr J
  | .parsed d => .ok d
  | .malformed _ => .error .jsonDecode

/-- Top-level `deep_merge_dict(base, overlay)` called on arbitrary parsed
values, with the exceptions Python raises when a side is not a dict:

* both dicts: total, returns the merged dict (inner recursion is guarded
  by `isinstance` checks and cannot fail);
* base is a dict, overlay is not: `overlay.items()` raises
  `AttributeError`;
* base is a list: `base.copy()` succeeds; an empty dict overlay returns
  the copied list, a non-empty one hits `result[key]` / `result[key] = v`
  on a list with a string key, raising `TypeError`; a non-dict overlay
  raises `AttributeError` at `overlay.items()`;
* any other base (str/int/bool/None): `base.copy()` raises
  `AttributeError` immediately. -/
def topMerge : J → J → Except PyErr J
  | .obj b, .obj o => .ok (.obj (mergeList b o))
  | .obj _, _ => .error .attrError
  | .arr xs, .obj [] => .ok (.arr xs)
  | .arr _, .obj (_ :: _) => .error .typeError
  | .arr _, _ => .error .attrError
  | _, _ => .error .attrError

/-- The body of the `try` block at lines 61-76: parse source, parse
target, `deep_merge_dict(target_data, source_data)`. -/
def tryMergeJson (src tgt : FileContent) : Except PyErr J := do
  let sdata ← parseJson src
  let tdata ← parseJson tgt
  topMerge tdata sdata

/-- What happens to the destination file in the JSON branch. -/
inductive MergeOutcome where
  | merged (doc : J)  -- merged document serialized over the target
  | overwritten       -- fell through to the overwrite path (line 106)

/-- Lines 59-80 of `copy_file_with_json_merge` for a `.json` source whose
target exists: `except (json.JSONDecodeError, KeyError)` degrades those
two exception types to the overwrite fallback; every other exception
(AttributeError, TypeError, ...) propagates and aborts the run. -/
def jsonBranch (src tgt : FileContent) : Except PyErr MergeOutcome :=
  match tryMergeJson src tgt with
  | .ok m => .ok (.merged m)
  | .error .jsonDecode => .ok .overwritten
  | .error .keyError => .ok .overwritten
  | .error e => .error e

/-!
## Directory-level materialization and the `__main__` pipeline

A destination project directory is a flat name → content map (the claims
only concern top-level files; the recursive directory branch of
`copy_file_with_json_merge`, lines 51-57, applies the same per-file rule
one level down).  Shard and task pools map names to file lists.
-/

/-- A source file (one entry of a shard or task directory). -/
structure SrcFile where
  name : String
  content : FileContent

/-- The materialized project directory: file name → content, in
insertion order. -/
abbrev Proj := List (String × FileContent)

/-- Test `source.suffix == ".json"`: the name ends in `".json"` and is longer
than the bare dotfile `".json"` (whose pathlib suffix is empty).  Stated
over the character list so it computes by reduction. -/
def isJsonName (n : String) : Bool :=
  decide (5 < n.data.length) && (n.data.reverse.take 5 == ".json".data.reverse)

/-- Model of `copy_file_with_json_merge(source, target_dir)` for a file source:
the JSON-merge branch (lines 59-80) when the extension matches and the
target exists, the plain overwrite copy (line 106) otherwise.  An
uncaught Python exception is returned as `.error`.  (The TOML branch at
lines 83-103 is the same shape with the TOML codec; the claims are
settled on the JSON instance.) -/
def copy_file_with_json_merge (dest : Proj) (f : SrcFile) : Except PyErr Proj :=
  if isJsonName f.name then
    match findVal dest f.name with
    | some tgt =>
      match jsonBranch f.content tgt with
      | .ok (.merged m) => .ok (setOrAdd dest f.name (.parsed m))
      | .ok .overwritten => .ok (setOrAdd dest f.name f.content)
      | .error e => .error e
    | none => .ok (setOrAdd dest f.name f.content)
  else .ok (setOrAdd dest f.name f.content)

/-- A pool (the `config_forge` or `tasks` directory): name → files. -/
abbrev Pool := List (String × List SrcFile)

/-- Globbing via `Path(POOL / name).glob("*")`: globbing a directory that does not
exist yields no entries and raises nothing, so a name missing from its
pool contributes no files. -/
def poolFiles (pool : Pool) (name : String) : List SrcFile :=
  (findVal pool name).getD []

/-- Relocation `f.move_into(...)` / exclusion from the project dir: the file leaves
the project directory. -/
def removeName : Proj → String → Proj
  | [], _ => []
  | (k', v) :: rest, k =>
    if k' = k then removeName rest k else (k', v) :: removeName rest k

/-- The `INITIAL_FILES` content (lines 218-223): each top-level entry of
`project/`, relative to the task root, one per line, plus a trailing
newline. -/
def manifestText (proj : Proj) : String :=
  String.intercalate "\n" (proj.map (fun p => "project/" ++ p.1)) ++ "\n"

/-- Observable steps of one run, in order. -/
inductive Event where
  | materializeFile (dir name : String)   -- a shard/task file applied into the dir project
  | relocate (dir name : String)          -- move_into of run.sh / prompt.md
  | writeManifest (dir content : String)  -- INITIAL_FILES write
  | execChmod (dir : String)              -- os.system("chmod +x run.sh")
  | execGit (dir : String)                -- os.system("git init && ...")
  | execSetup (dir : String)              -- ./setup.sh
  | execRun (dir : String)                -- ./run.sh
  | execEval (dir evalName : String)      -- evals/<e>/run.sh
  deriving DecidableEq

/-- Whether an event invokes an external script/command. -/
def isExec : Event → Bool
  | .execChmod _ | .execGit _ | .execSetup _ | .execRun _ | .execEval _ _ => true
  | _ => false

/-- Whether an event is a manifest write. -/
def isManifestEvent : Event → Bool
  | .writeManifest _ _ => true
  | _ => false

/-- Fatal terminations of the run (`exit(1)` / `sys.exit(...)` /
an uncaught exception). -/
inductive RunError where
  | variantNotFound (requested : String) (available : List String)  -- lines 159-163
  | noVariants                                                      -- lines 169-171
  | entrypointMissing (dir : String)                                -- line 207
  | promptMissing (dir : String)                                    -- line 212
  | uncaught (e : PyErr)                                            -- unhandled exception
  deriving DecidableEq

/-- The `Available variants: ...` line of the variant-not-found message
(line 161): names joined by a comma and space, declaration order. -/
def availableVariantsLine (names : List String) : String :=
  "Available variants: " ++ String.intercalate ", " names

/-- Apply the files of one directory in order via
`copy_file_with_json_merge`, recording one event per applied file and
stopping at the first uncaught exception. -/
def applyFiles (dir : String) : Proj → List SrcFile → List Event × Except PyErr Proj
  | proj, [] => ([], .ok proj)
  | proj, f :: rest =>
    match copy_file_with_json_merge proj f with
    | .error e => ([], .error e)
    | .ok proj' =>
      match applyFiles dir proj' rest with
      | (evs, r) => (.materializeFile dir f.name :: evs, r)

/-- Apply a list of shard names in order (lines 188-198): the pool files of each shard go through `copy_file_with_json_merge`. -/
def applyShards (forge : Pool) (dir : String) : Proj → List String → List Event × Except PyErr Proj
  | proj, [] => ([], .ok proj)
  | proj, s :: rest =>
    match applyFiles dir proj (poolFiles forge s) with
    | (evs, .error e) => (evs, .error e)
    | (evs, .ok proj') =>
      match applyShards forge dir proj' rest with
      | (evs', r) => (evs ++ evs', r)

/-- Lines 200-202: the files of the task itself are applied with plain
`f.copy_into(project_dir)` -- byte copy, no structured merge, cannot
raise. -/
def applyTaskFiles (proj : Proj) (files : List SrcFile) : Proj :=
  files.foldl (fun p f => setOrAdd p f.name f.content) proj

/-- Destination directory name under `tasks/` (lines 176-179). -/
def taskDirName (task vn : String) : String :=
  if vn = "" then task else task ++ "_" ++ vn

/-- The external commands run for one task after the manifest write
(lines 224-243): chmod, git, optional setup.sh, run.sh, evaluators. -/
def execEvents (dir : String) (proj : Proj) (evalsL : List String) : List Event :=
  [.execChmod dir, .execGit dir] ++
    (match findVal proj "setup.sh" with
     | some _ => [.execSetup dir]
     | none => []) ++
    [.execRun dir] ++ evalsL.map (fun e => .execEval dir e)

/-- Lines 188-202 for one task directory: base shards, then variant
shards (each through `copy_file_with_json_merge`), then the files of
the task itself (plain copy). -/
def materializeTask (forge tasksPool : Pool) (baseCfgs : List String) (task vn : String)
    (vcfgs : List String) : List Event × Except PyErr Proj :=
  let dir := taskDirName task vn
  match applyShards forge dir [] baseCfgs with
  | (evs1, .error e) => (evs1, .error e)
  | (evs1, .ok p1) =>
    match applyShards forge dir p1 vcfgs with
    | (evs2, .error e) => (evs1 ++ evs2, .error e)
    | (evs2, .ok p2) =>
      let tfiles := poolFiles tasksPool task
      (evs1 ++ evs2 ++ tfiles.map (fun f => Event.materializeFile dir f.name),
        .ok (applyTaskFiles p2 tfiles))

/-- Lines 204-243 on the fully materialized project `p3`: the run.sh and
prompt.md existence checks and relocations (`sys.exit` on absence),
the manifest write, then the external commands. -/
def checkAndRun (dir : String) (p3 : Proj) (evalsL : List String) : List Event × Option RunError :=
  match findVal p3 "run.sh" with
  | none => ([], some (.entrypointMissing dir))
  | some _ =>
    let p4 := removeName p3 "run.sh"
    match findVal p4 "prompt.md" with
    | none => ([.relocate dir "run.sh"], some (.promptMissing dir))
    | some _ =>
      let p5 := removeName p4 "prompt.md"
      ([.relocate dir "run.sh", .relocate dir "prompt.md",
          .writeManifest dir (manifestText p5)] ++
          execEvents dir p5 evalsL,
        none)

/-- One iteration of the inner loop of `__main__` (lines 174-243). -/
def runTask (forge tasksPool : Pool) (baseCfgs evalsL : List String) (task vn : String)
    (vcfgs : List String) : List Event × Option RunError :=
  match materializeTask forge tasksPool baseCfgs task vn vcfgs with
  | (evs, .error e) => (evs, some (.uncaught e))
  | (evs, .ok p3) =>
    match checkAndRun (taskDirName task vn) p3 evalsL with
    | (evs', r) => (evs ++ evs', r)

/-- The experiment declaration fields the planner consumes.  `variants`
as `[]` models a missing / `None` / empty mapping (all falsy at line
150). -/
structure Config where
  tasks : List String
  configs : List String
  variants : List (String × List String)
  evals : List String

/-- Lines 149-172: which (variant name, variant shard list) pairs one
task iteration processes, or the fatal error. -/
def determineVariants (cfg : Config) (varg : Option String) : Except RunError (List (String × List String)) :=
  if cfg.variants ≠ [] then
    match varg with
    | some v =>
      let matching := cfg.variants.filter (fun p => p.1 == v)
      if matching.isEmpty then
        .error (.variantNotFound v (cfg.variants.map Prod.fst))
      else .ok matching
    | none => .ok cfg.variants
  else
    match varg with
    | some _ => .error .noVariants
    | none => .ok [("", [])]

/-- The inner `for variant_name, variant_configs in variants_to_process`
loop, short-circuiting on a fatal error. -/
def runVariants (forge tasksPool : Pool) (baseCfgs evalsL : List String) (task : String) :
    List (String × List String) → List Event × Option RunError
  | [] => ([], none)
  | (vn, vc) :: rest =>
    match runTask forge tasksPool baseCfgs evalsL task vn vc with
    | (evs, some e) => (evs, some e)
    | (evs, none) =>
      match runVariants forge tasksPool baseCfgs evalsL task rest with
      | (evs', r) => (evs ++ evs', r)

/-- The outer `for task in experiment_config["tasks"]` loop: the variant
filter is (re-)validated at the top of each iteration. -/
def runTasks (forge tasksPool : Pool) (cfg : Config) (varg : Option String) :
    List String → List Event × Option RunError
  | [] => ([], none)
  | t :: rest =>
    match determineVariants cfg varg with
    | .error e => ([], some e)
    | .ok vs =>
      match runVariants forge tasksPool cfg.configs cfg.evals t vs with
      | (evs, some e) => (evs, some e)
      | (evs, none) =>
        match runTasks forge tasksPool cfg varg rest with
        | (evs', r) => (evs ++ evs', r)

/-- The whole `__main__` flow from line 147 on: the event trace and, if
the run ended fatally, the terminating error (`none` = completed run). -/
def runMain (forge tasksPool : Pool) (cfg : Config) (varg : Option String) :
    List Event × Option RunError :=
  runTasks forge tasksPool cfg varg cfg.tasks

/-- One planned unit of work (spec §3): its merge plan is the base shard
list followed by the variant shard list; the file tree of the task
itself follows as the final layer. -/
structure ExperimentTask where
  taskId : String
  variantName : String
  destDir : String
  mergePlan : List String
  deriving DecidableEq

def mkExperimentTask (cfg : Config) (t : String) (p : String × List String) : ExperimentTask :=
  { taskId := t, variantName := p.1, destDir := taskDirName t p.1,
    mergePlan := cfg.configs ++ p.2 }

/-- The planning projection of lines 147-182: the ordered ExperimentTask
sequence the loops produce (task-list order outer, variant order
inner), or the fatal planning error. -/
def planTasksGo (cfg : Config) (varg : Option String) : List String → Except RunError (List ExperimentTask)
  | [] => .ok []
  | t :: rest =>
    match determineVariants cfg varg with
    | .error e => .error e
    | .ok vs =>
      match planTasksGo cfg varg rest with
      | .error e => .error e
      | .ok rest' => .ok (vs.map (mkExperimentTask cfg t) ++ rest')

def planTasks (cfg : Config) (varg : Option String) : Except RunError (List ExperimentTask) :=
  planTasksGo cfg varg cfg.tasks

end CcBench

/-! Sanity examples (mirroring the tests shipped with the repository). -/

example :
    CcBench.deep_merge_dict [("a", .num 1), ("b", .num 2)] [("b", .num 3), ("c", .num 4)] =
      [("a", .num 1), ("b", .num 3), ("c", .num 4)] := by rfl

example :
    CcBench.deep_merge_dict [("items", .arr [.num 1, .num 2, .num 3])]
        [("items", .arr [.num 4, .num 5])] =
      [("items", .arr [.num 1, .num 2, .num 3, .num 4, .num 5])] := by rfl

example :
    CcBench.deep_merge_dict
        [("a", .num 1), ("b", .obj [("x", .num 10)])]
        [("b", .obj [("y", .num 20)]), ("c", .num 3)] =
      [("a", .num 1), ("b", .obj [("x", .num 10), ("y", .num 20)]), ("c", .num 3)] := by rfl

/-! ## Lookup lemmas -/

namespace CcBench

theorem findVal_append_of_some {α : Type} {l : List (String × α)} {k : String} {v : α}
    (m : List (String × α)) (h : findVal l k = some v) : findVal (l ++ m) k = some v := by
  induction l with
  | nil => exact absurd h (by simp [findVal])
  | cons p rest ih =>
    obtain ⟨k', v'⟩ := p
    simp only [findVal, List.cons_append] at h ⊢
    by_cases hk : k' = k
    · rw [if_pos hk] at h ⊢; exact h
    · rw [if_neg hk] at h ⊢; exact ih h

theorem findVal_append_of_none {α : Type} {l : List (String × α)} {k : String}
    (m : List (String × α)) (h : findVal l k = none) : findVal (l ++ m) k = findVal m k := by
  induction l with
  | nil => rfl
  | cons p rest ih =>
    obtain ⟨k', v'⟩ := p
    simp only [findVal, List.cons_append] at h ⊢
    by_cases hk : k' = k
    · rw [if_pos hk] at h; exact absurd h (by simp)
    · rw [if_neg hk] at h ⊢; exact ih h

theorem findVal_setKey_self {α : Type} {l : List (String × α)} {k : String} {v0 : α}
    (v : α) (h : findVal l k = some v0) : findVal (setKey l k v) k = some v := by
  induction l with
  | nil => exact absurd h (by simp [findVal])
  | cons p rest ih =>
    obtain ⟨k', v'⟩ := p
    simp only [findVal, setKey] at h ⊢
    by_cases hk : k' = k
    · rw [if_pos hk]
      simp [findVal, hk]
    · rw [if_neg hk] at h
      rw [if_neg hk]
      simp only [findVal]
      rw [if_neg hk]
      exact ih h

theorem findVal_setKey_ne {α : Type} (l : List (String × α)) {k' k : String} (v : α)
    (h : k' ≠ k) : findVal (setKey l k v) k' = findVal l k' := by
  induction l with
  | nil => rfl
  | cons p rest ih =>
    obtain ⟨k'', v''⟩ := p
    simp only [setKey, findVal]
    by_cases hk : k'' = k
    · rw [if_pos hk]
      have hne : ¬(k'' = k') := fun hh => h (by rw [← hh, hk])
      simp only [findVal]
      rw [if_neg hne, if_neg hne]
    · rw [if_neg hk]
      simp only [findVal]
      by_cases hk2 : k'' = k'
      · rw [if_pos hk2, if_pos hk2]
      · rw [if_neg hk2, if_neg hk2]; exact ih

theorem findVal_eq_none_of_not_mem {α : Type} {l : List (String × α)} {k : String}
    (h : k ∉ l.map Prod.fst) : findVal l k = none := by
  induction l with
  | nil => rfl
  | cons p rest ih =>
    obtain ⟨k', v'⟩ := p
    simp only [List.map_cons, List.mem_cons, not_or] at h
    have hne : ¬(k' = k) := fun hh => h.1 hh.symm
    simp only [findVal]
    rw [if_neg hne]
    exact ih h.2

theorem findVal_append_single_ne {α : Type} (l : List (String × α)) {k' k : String} (v : α)
    (h : k' ≠ k) : findVal (l ++ [(k', v)]) k = findVal l k := by
  cases hl : findVal l k with
  | none =>
    rw [findVal_append_of_none _ hl]
    simp [findVal, h]
  | some w => rw [findVal_append_of_some _ hl]

theorem findVal_setOrAdd_self {α : Type} (l : List (String × α)) (k : String) (v : α) :
    findVal (setOrAdd l k v) k = some v := by
  cases hl : findVal l k with
  | none =>
    simp only [setOrAdd, hl]
    rw [findVal_append_of_none _ hl]
    simp [findVal]
  | some w =>
    simp only [setOrAdd, hl]
    exact findVal_setKey_self v hl

theorem findVal_removeName_self (l : Proj) (k : String) :
    findVal (removeName l k) k = none := by
  induction l with
  | nil => rfl
  | cons p rest ih =>
    obtain ⟨k', v'⟩ := p
    simp only [removeName]
    by_cases hk : k' = k
    · rw [if_pos hk]; exact ih
    · rw [if_neg hk]
      simp only [findVal]
      rw [if_neg hk]
      exact ih

theorem findVal_removeName_ne (l : Proj) {k' k : String} (h : k' ≠ k) :
    findVal (removeName l k) k' = findVal l k' := by
  induction l with
  | nil => rfl
  | cons p rest ih =>
    obtain ⟨k'', v''⟩ := p
    simp only [removeName, findVal]
    by_cases hk : k'' = k
    · rw [if_pos hk]
      have hne : ¬(k'' = k') := fun hh => h (by rw [← hh, hk])
      rw [ih, if_neg hne]
    · rw [if_neg hk]
      simp only [findVal]
      by_cases hk2 : k'' = k'
      · rw [if_pos hk2, if_pos hk2]
      · rw [if_neg hk2, if_neg hk2]; exact ih

end CcBench

/-! ## Merge lemmas -/

namespace CcBench

theorem findVal_mergeList_of_none {o : List (String × J)} {k : String}
    (h : findVal o k = none) : ∀ b, findVal (mergeList b o) k = findVal b k := by
  induction o with
  | nil => intro b; rfl
  | cons p rest ih =>
    obtain ⟨k', v'⟩ := p
    intro b
    simp only [findVal] at h
    by_cases hk : k' = k
    · rw [if_pos hk] at h; exact absurd h (by simp)
    · rw [if_neg hk] at h
      simp only [mergeList]
      rw [ih h]
      cases hb : findVal b k' with
      | some bw =>
        simp only [hb]
        exact findVal_setKey_ne b _ (fun hh => hk hh.symm)
      | none =>
        simp only [hb]
        exact findVal_append_single_ne b v' hk

theorem findVal_mergeList_of_some {o : List (String × J)} {k : String} {v : J}
    (hnd : (o.map Prod.fst).Nodup) (ho : findVal o k = some v) :
    ∀ b bv, findVal b k = some bv → findVal (mergeList b o) k = some (mergeVal bv v) := by
  induction o with
  | nil => exact absurd ho (by simp [findVal])
  | cons p rest ih =>
    obtain ⟨k', v'⟩ := p
    intro b bv hb
    simp only [List.map_cons, List.nodup_cons] at hnd
    simp only [findVal] at ho
    by_cases hk : k' = k
    · rw [if_pos hk] at ho
      injection ho with hv
      subst hv
      subst hk
      simp only [mergeList, hb]
      have hnone : findVal rest k' = none := findVal_eq_none_of_not_mem hnd.1
      rw [findVal_mergeList_of_none hnone]
      exact findVal_setKey_self _ hb
    · rw [if_neg hk] at ho
      simp only [mergeList]
      cases hbk : findVal b k' with
      | some bw =>
        simp only [hbk]
        exact ih hnd.2 ho _ bv
          (by rw [findVal_setKey_ne b _ (fun hh => hk hh.symm)]; exact hb)
      | none =>
        simp only [hbk]
        exact ih hnd.2 ho _ bv (by rw [findVal_append_single_ne b v' hk]; exact hb)

end CcBench

/-! ## Claim C6 -/

/-- C6: for every pair of dicts sharing a key `k` whose value is a
list in both, `deep_merge_dict(base, overlay)[k]` is the base elements
followed by the overlay elements, order and duplicates preserved. -/
theorem CcBench.deep_merge_dict_concatenates_lists
    (base overlay : List (String × CcBench.J)) (k : String) (xs ys : List CcBench.J)
    (hnd : (overlay.map Prod.fst).Nodup)
    (hb : CcBench.findVal base k = some (.arr xs))
    (ho : CcBench.findVal overlay k = some (.arr ys)) :
    CcBench.findVal (CcBench.deep_merge_dict base overlay) k = some (.arr (xs ++ ys)) :=
  CcBench.findVal_mergeList_of_some hnd ho base _ hb

/-- Witness for C6 at the concrete example given in the spec,
`merge({"items":[1,2,3]}, {"items":[4,5]})`. -/
theorem CcBench.deep_merge_dict_concatenates_lists_witness :
    (([("items", CcBench.J.arr [.num 4, .num 5])].map Prod.fst).Nodup) ∧
    CcBench.findVal [("items", CcBench.J.arr [.num 1, .num 2, .num 3])] "items" =
      some (CcBench.J.arr [.num 1, .num 2, .num 3]) ∧
    CcBench.findVal [("items", CcBench.J.arr [.num 4, .num 5])] "items" =
      some (CcBench.J.arr [.num 4, .num 5]) ∧
    CcBench.findVal
        (CcBench.deep_merge_dict [("items", CcBench.J.arr [.num 1, .num 2, .num 3])]
          [("items", CcBench.J.arr [.num 4, .num 5])]) "items" =
      some (CcBench.J.arr [.num 1, .num 2, .num 3, .num 4, .num 5]) :=
  ⟨by decide, rfl, rfl,
    CcBench.deep_merge_dict_concatenates_lists
      [("items", CcBench.J.arr [.num 1, .num 2, .num 3])]
      [("items", CcBench.J.arr [.num 4, .num 5])] "items"
      [CcBench.J.num 1, CcBench.J.num 2, CcBench.J.num 3]
      [CcBench.J.num 4, CcBench.J.num 5] (by decide) rfl rfl⟩

/-! ## Claim C1 -/

/-- The input of the C1 refutation: `base = {"k": [1]}` at address 1 (its
list at address 0), `overlay = {"k": [2]}` at address 3 (its list at
address 2). -/
def CcBench.c1Heap : CcBench.Heap :=
  { objs := [(0, .list [.int 1]), (1, .dict [("k", .ref 0)]),
      (2, .list [.int 2]), (3, .dict [("k", .ref 2)])],
    next := 4 }

/-- The heap after the merge: the list at address 0 (the base list) has
been extended in place, and the freshly allocated result dict at address
4 still references it. -/
def CcBench.c1HeapAfter : CcBench.Heap :=
  { objs := [(0, .list [.int 1, .int 2]), (1, .dict [("k", .ref 0)]),
      (2, .list [.int 2]), (3, .dict [("k", .ref 2)]), (4, .dict [("k", .ref 0)])],
    next := 5 }

/-- C1 is false on the code: running `deep_merge_dict(base, overlay)`
on `base = {"k": [1]}`, `overlay = {"k": [2]}` mutates `base` in place to
`{"k": [1, 2]}` (the shallow `base.copy()` shares the list object, which
`result[key].extend(value)` then extends), and the returned dict still
references the base list, so the result shares mutable state with `base`. -/
theorem CcBench.deep_merge_dict_mutates_base :
    CcBench.denotePVal 5 CcBench.c1Heap (.ref 1) = some (.obj [("k", .arr [.num 1])]) ∧
    CcBench.denotePVal 5 CcBench.c1Heap (.ref 3) = some (.obj [("k", .arr [.num 2])]) ∧
    CcBench.pyDeepMerge 5 CcBench.c1Heap 1 3 = some (CcBench.c1HeapAfter, 4) ∧
    CcBench.denotePVal 5 CcBench.c1HeapAfter (.ref 1) =
      some (.obj [("k", .arr [.num 1, .num 2])]) ∧
    CcBench.readHeap CcBench.c1HeapAfter 4 = some (.dict [("k", .ref 0)]) ∧
    CcBench.readHeap CcBench.c1Heap 0 = some (.list [.int 1]) ∧
    CcBench.readHeap CcBench.c1HeapAfter 0 = some (.list [.int 1, .int 2]) :=
  ⟨rfl, rfl, by decide, rfl, rfl, rfl, rfl⟩

/-! ## Claim C2 -/

/-- C2 is false on the code: a `.json` file whose content is a
top-level array, merged against an existing target that parses to a
mapping, is NOT treated as a parse failure -- `deep_merge_dict({}, [])`
raises `AttributeError` (a list has no `.items()`), which the
`except (json.JSONDecodeError, KeyError)` clause does not catch, so the
run aborts instead of falling back to overwrite. -/
theorem CcBench.json_array_top_level_raises :
    CcBench.jsonBranch (.parsed (.arr [])) (.parsed (.obj [])) = .error .attrError ∧
    CcBench.copy_file_with_json_merge [("config.json", .parsed (.obj []))]
      ⟨"config.json", .parsed (.arr [])⟩ = .error .attrError :=
  ⟨rfl, rfl⟩

/-! ## Claim C3 -/

/-- C3 is false on the code: the files of the task itself are applied with
plain `f.copy_into(project_dir)` (line 202), not through
`copy_file_with_json_merge`.  A `settings.json` in the task directory
byte-overwrites the already-materialized destination file, where
shard-application semantics would have deep-merged the two documents. -/
theorem CcBench.task_layer_overwrites_structured_file :
    CcBench.applyTaskFiles [("settings.json", .parsed (.obj [("a", .num 1)]))]
        [⟨"settings.json", .parsed (.obj [("b", .num 2)])⟩] =
      [("settings.json", .parsed (.obj [("b", .num 2)]))] ∧
    CcBench.copy_file_with_json_merge [("settings.json", .parsed (.obj [("a", .num 1)]))]
        ⟨"settings.json", .parsed (.obj [("b", .num 2)])⟩ =
      .ok [("settings.json", .parsed (.obj [("a", .num 1), ("b", .num 2)]))] ∧
    CcBench.J.obj [("b", .num 2)] ≠ CcBench.J.obj [("a", .num 1), ("b", .num 2)] :=
  ⟨rfl, rfl, by simp⟩

/-- C3 amended: the task layer is applied last, but by plain copy --
an incoming task file always replaces whatever the destination holds
under that name, with no structured merge. -/
theorem CcBench.task_files_overwrite (dest : CcBench.Proj) (f : CcBench.SrcFile) :
    CcBench.findVal (CcBench.applyTaskFiles dest [f]) f.name = some f.content :=
  CcBench.findVal_setOrAdd_self dest f.name f.content

/-! ## Pipeline characterization lemmas -/

namespace CcBench

theorem applyFiles_events (dir : String) :
    ∀ (fs : List SrcFile) (proj : Proj) (ev : Event),
      ev ∈ (applyFiles dir proj fs).1 → ∃ n, ev = .materializeFile dir n := by
  intro fs
  induction fs with
  | nil => intro proj ev h; simp [applyFiles] at h
  | cons f rest ih =>
    intro proj ev h
    simp only [applyFiles] at h
    cases hc : copy_file_with_json_merge proj f with
    | error e => simp [hc] at h
    | ok proj' =>
      simp only [hc] at h
      rcases List.mem_cons.mp h with h | h
      · exact ⟨f.name, h⟩
      · exact ih proj' ev h

theorem applyShards_events (forge : Pool) (dir : String) :
    ∀ (ss : List String) (proj : Proj) (ev : Event),
      ev ∈ (applyShards forge dir proj ss).1 → ∃ n, ev = .materializeFile dir n := by
  intro ss
  induction ss with
  | nil => intro proj ev h; simp [applyShards] at h
  | cons s rest ih =>
    intro proj ev h
    simp only [applyShards] at h
    rcases haf : applyFiles dir proj (poolFiles forge s) with ⟨evs, r⟩
    cases r with
    | error e =>
      simp only [haf] at h
      exact applyFiles_events dir _ proj ev (by rw [haf]; exact h)
    | ok proj' =>
      simp only [haf] at h
      rcases List.mem_append.mp h with h | h
      · exact applyFiles_events dir _ proj ev (by rw [haf]; exact h)
      · exact ih proj' ev h

theorem materializeTask_events (forge tasksPool : Pool) (baseCfgs : List String)
    (task vn : String) (vcfgs : List String) (ev : Event)
    (h : ev ∈ (materializeTask forge tasksPool baseCfgs task vn vcfgs).1) :
    ∃ n, ev = .materializeFile (taskDirName task vn) n := by
  simp only [materializeTask] at h
  rcases h1 : applyShards forge (taskDirName task vn) [] baseCfgs with ⟨evs1, r1⟩
  cases r1 with
  | error e =>
    simp only [h1] at h
    exact applyShards_events _ _ _ _ ev (by rw [h1]; exact h)
  | ok p1 =>
    simp only [h1] at h
    rcases h2 : applyShards forge (taskDirName task vn) p1 vcfgs with ⟨evs2, r2⟩
    cases r2 with
    | error e =>
      simp only [h2] at h
      rcases List.mem_append.mp h with h | h
      · exact applyShards_events _ _ _ _ ev (by rw [h1]; exact h)
      · exact applyShards_events _ _ _ _ ev (by rw [h2]; exact h)
    | ok p2 =>
      simp only [h2] at h
      rcases List.mem_append.mp h with h | h
      rcases List.mem_append.mp h with h | h
      · exact applyShards_events _ _ _ _ ev (by rw [h1]; exact h)
      · exact applyShards_events _ _ _ _ ev (by rw [h2]; exact h)
      · rcases List.mem_map.mp h with ⟨f, _, hf⟩
        exact ⟨f.name, hf.symm⟩

theorem materializeTask_ok (forge tasksPool : Pool) (baseCfgs : List String)
    (task vn : String) (vcfgs : List String) {evs1 evs2 : List Event} {p1 p2 : Proj}
    (h1 : applyShards forge (taskDirName task vn) [] baseCfgs = (evs1, .ok p1))
    (h2 : applyShards forge (taskDirName task vn) p1 vcfgs = (evs2, .ok p2)) :
    materializeTask forge tasksPool baseCfgs task vn vcfgs =
      (evs1 ++ evs2 ++
          (poolFiles tasksPool task).map
            (fun f => Event.materializeFile (taskDirName task vn) f.name),
        .ok (applyTaskFiles p2 (poolFiles tasksPool task))) := by
  simp only [materializeTask, h1, h2]

theorem checkAndRun_success (dir : String) (p3 : Proj) (evalsL : List String)
    {c1 c2 : FileContent} (h1 : findVal p3 "run.sh" = some c1)
    (h2 : findVal (removeName p3 "run.sh") "prompt.md" = some c2) :
    checkAndRun dir p3 evalsL =
      ([.relocate dir "run.sh", .relocate dir "prompt.md",
          .writeManifest dir
            (manifestText (removeName (removeName p3 "run.sh") "prompt.md"))] ++
          execEvents dir (removeName (removeName p3 "run.sh") "prompt.md") evalsL,
        none) := by
  simp only [checkAndRun, h1, h2]

theorem checkAndRun_no_entrypoint (dir : String) (p3 : Proj) (evalsL : List String)
    (h1 : findVal p3 "run.sh" = none) :
    checkAndRun dir p3 evalsL = ([], some (.entrypointMissing dir)) := by
  simp only [checkAndRun, h1]

theorem checkAndRun_no_prompt (dir : String) (p3 : Proj) (evalsL : List String)
    {c1 : FileContent} (h1 : findVal p3 "run.sh" = some c1)
    (h2 : findVal (removeName p3 "run.sh") "prompt.md" = none) :
    checkAndRun dir p3 evalsL = ([.relocate dir "run.sh"], some (.promptMissing dir)) := by
  simp only [checkAndRun, h1, h2]

end CcBench

/-! ## Claim C4 -/

/-- Task pool for the C4 refutation: task t1 itself provides run.sh and
prompt.md. -/
def CcBench.c4TasksPool : CcBench.Pool :=
  [("t1", [⟨"run.sh", .malformed "#run"⟩, ⟨"prompt.md", .malformed "#prompt"⟩])]

/-- A declaration whose `configs` references a shard that exists in no
pool. -/
def CcBench.c4Cfg : CcBench.Config :=
  { tasks := ["t1"], configs := ["missing_shard"], variants := [], evals := [] }

/-- C4 is false on the code: with `configs = ["missing_shard"]` and an
empty forge pool, the run does not abort at all --
`Path(FORGE / "missing_shard").glob("*")` silently yields nothing -- and
the run completes (the run.sh of t1 even executes). -/
theorem CcBench.missing_shard_does_not_abort :
    CcBench.findVal ([] : CcBench.Pool) "missing_shard" = none ∧
    (CcBench.runMain [] CcBench.c4TasksPool CcBench.c4Cfg none).2 = none ∧
    CcBench.Event.execRun "t1" ∈
      (CcBench.runMain [] CcBench.c4TasksPool CcBench.c4Cfg none).1 :=
  ⟨rfl, rfl, by decide⟩

/-- C4 amended: a shard name absent from the forge pool (or a task
name absent from the task pool) is silently skipped -- its layer applies
no files and emits no events -- and the run proceeds instead of
aborting. -/
theorem CcBench.missing_pool_names_are_noops (forge tasksPool : CcBench.Pool)
    (dir : String) (proj : CcBench.Proj) (s t : String)
    (hs : CcBench.findVal forge s = none) (ht : CcBench.findVal tasksPool t = none) :
    CcBench.applyShards forge dir proj [s] = ([], .ok proj) ∧
    CcBench.applyTaskFiles proj (CcBench.poolFiles tasksPool t) = proj := by
  constructor
  · simp [CcBench.applyShards, CcBench.applyFiles, CcBench.poolFiles, hs]
  · simp [CcBench.applyTaskFiles, CcBench.poolFiles, ht]

/-- Witness for the amended C4 at a concrete missing shard and task. -/
theorem CcBench.missing_pool_names_are_noops_witness :
    CcBench.findVal ([("other", [])] : CcBench.Pool) "shardX" = none ∧
    CcBench.findVal ([] : CcBench.Pool) "taskX" = none ∧
    CcBench.applyShards [("other", [])] "d" [] ["shardX"] = ([], .ok []) ∧
    CcBench.applyTaskFiles [] (CcBench.poolFiles [] "taskX") = [] :=
  ⟨rfl, rfl,
    (CcBench.missing_pool_names_are_noops [("other", [])] [] "d" [] "shardX" "taskX" rfl rfl).1,
    (CcBench.missing_pool_names_are_noops [("other", [])] [] "d" [] "shardX" "taskX" rfl rfl).2⟩

/-! ## Claim C5 -/

/-- Task pool for the C5 refutation: t1 is complete, t2 lacks
prompt.md. -/
def CcBench.c5TasksPool : CcBench.Pool :=
  [("t1", [⟨"run.sh", .malformed "#r"⟩, ⟨"prompt.md", .malformed "#p"⟩]),
    ("t2", [⟨"run.sh", .malformed "#r"⟩])]

def CcBench.c5Cfg : CcBench.Config :=
  { tasks := ["t1", "t2"], configs := [], variants := [], evals := ["e1"] }

/-- C5 is false on the code: tasks are materialized and executed one
at a time, so when t2 aborts the whole run (missing prompt.md), the
run.sh of t1 and its evaluator script have already executed in that same
fatally-ending run. -/
theorem CcBench.fatal_run_after_scripts_ran :
    (CcBench.runMain [] CcBench.c5TasksPool CcBench.c5Cfg none).2 =
      some (.promptMissing "t2") ∧
    CcBench.Event.execRun "t1" ∈
      (CcBench.runMain [] CcBench.c5TasksPool CcBench.c5Cfg none).1 ∧
    CcBench.Event.execEval "t1" "e1" ∈
      (CcBench.runMain [] CcBench.c5TasksPool CcBench.c5Cfg none).1 :=
  ⟨rfl, by decide, by decide⟩

/-- C5 amended: a fatal condition does abort the OFFENDING task before
any of its own external scripts: when `runTask` ends in an error, its
event trace contains no exec event.  (Earlier completed tasks of the same
run have already run their scripts, as the counterexample shows.) -/
theorem CcBench.fatal_task_runs_no_scripts (forge tasksPool : CcBench.Pool)
    (baseCfgs evalsL : List String) (task vn : String) (vcfgs : List String)
    (e : CcBench.RunError)
    (h : (CcBench.runTask forge tasksPool baseCfgs evalsL task vn vcfgs).2 = some e) :
    ∀ ev ∈ (CcBench.runTask forge tasksPool baseCfgs evalsL task vn vcfgs).1,
      CcBench.isExec ev = false := by
  intro ev hev
  rcases hm : CcBench.materializeTask forge tasksPool baseCfgs task vn vcfgs with ⟨evs, r⟩
  cases r with
  | error e' =>
    simp only [CcBench.runTask, hm] at hev
    obtain ⟨n, rfl⟩ :=
      CcBench.materializeTask_events _ _ _ _ _ _ ev (by rw [hm]; exact hev)
    rfl
  | ok p3 =>
    cases hrs : CcBench.findVal p3 "run.sh" with
    | none =>
      have hc := CcBench.checkAndRun_no_entrypoint (CcBench.taskDirName task vn) p3 evalsL hrs
      simp only [CcBench.runTask, hm, hc, List.append_nil] at hev
      obtain ⟨n, rfl⟩ :=
        CcBench.materializeTask_events _ _ _ _ _ _ ev (by rw [hm]; exact hev)
      rfl
    | some c1 =>
      cases hpm : CcBench.findVal (CcBench.removeName p3 "run.sh") "prompt.md" with
      | none =>
        have hc :=
          CcBench.checkAndRun_no_prompt (CcBench.taskDirName task vn) p3 evalsL hrs hpm
        simp only [CcBench.runTask, hm, hc] at hev
        rcases List.mem_append.mp hev with h' | h'
        · obtain ⟨n, rfl⟩ :=
            CcBench.materializeTask_events _ _ _ _ _ _ ev (by rw [hm]; exact h')
          rfl
        · obtain rfl := List.mem_singleton.mp h'
          rfl
      | some c2 =>
        have hc :=
          CcBench.checkAndRun_success (CcBench.taskDirName task vn) p3 evalsL hrs hpm
        rw [CcBench.runTask, hm] at h
        simp only [hc] at h
        exact absurd h (by simp)

/-- Witness for the amended C5: a task with nothing materialized fails the
run.sh check and its trace has no exec event. -/
theorem CcBench.fatal_task_runs_no_scripts_witness :
    (CcBench.runTask [] [] [] [] "t" "" []).2 = some (.entrypointMissing "t") ∧
    (∀ ev ∈ (CcBench.runTask [] [] [] [] "t" "" []).1, CcBench.isExec ev = false) :=
  ⟨rfl, CcBench.fatal_task_runs_no_scripts [] [] [] [] "t" "" [] _ rfl⟩

/-! ## Claim C7 -/

/-- C7: planning with no variant filter against tasks `[t1, t2]` and
declared variants `[v1, v2]` produces exactly four ExperimentTasks in the
order t1/v1, t1/v2, t2/v1, t2/v2 (task order outer, variant declaration
order inner), each destined for `<task>_<variant>` and carrying the base
shards followed by the shards of that variant. -/
theorem CcBench.planner_order (t1 t2 v1 v2 : String) (c1 c2 baseCfgs evalsL : List String)
    (h1 : v1 ≠ "") (h2 : v2 ≠ "") :
    CcBench.planTasks
        { tasks := [t1, t2], configs := baseCfgs, variants := [(v1, c1), (v2, c2)],
          evals := evalsL } none =
      .ok
        [{ taskId := t1, variantName := v1, destDir := t1 ++ "_" ++ v1,
            mergePlan := baseCfgs ++ c1 },
          { taskId := t1, variantName := v2, destDir := t1 ++ "_" ++ v2,
            mergePlan := baseCfgs ++ c2 },
          { taskId := t2, variantName := v1, destDir := t2 ++ "_" ++ v1,
            mergePlan := baseCfgs ++ c1 },
          { taskId := t2, variantName := v2, destDir := t2 ++ "_" ++ v2,
            mergePlan := baseCfgs ++ c2 }] := by
  simp [CcBench.planTasks, CcBench.planTasksGo, CcBench.determineVariants,
    CcBench.mkExperimentTask, CcBench.taskDirName, h1, h2, Except.bind]

/-- Witness for C7 at concrete names T1, T2, V1, V2. -/
theorem CcBench.planner_order_witness :
    ("V1" : String) ≠ "" ∧ ("V2" : String) ≠ "" ∧
    CcBench.planTasks
        { tasks := ["T1", "T2"], configs := ["base"],
          variants := [("V1", ["s1"]), ("V2", ["s2"])], evals := [] } none =
      .ok
        [{ taskId := "T1", variantName := "V1", destDir := "T1_V1",
            mergePlan := ["base", "s1"] },
          { taskId := "T1", variantName := "V2", destDir := "T1_V2",
            mergePlan := ["base", "s2"] },
          { taskId := "T2", variantName := "V1", destDir := "T2_V1",
            mergePlan := ["base", "s1"] },
          { taskId := "T2", variantName := "V2", destDir := "T2_V2",
            mergePlan := ["base", "s2"] }] :=
  ⟨by decide, by decide,
    CcBench.planner_order "T1" "T2" "V1" "V2" ["s1"] ["s2"] ["base"] []
      (by decide) (by decide)⟩

/-! ## Claim C8 -/

/-- A declaration with variants but no tasks. -/
def CcBench.c8Cfg : CcBench.Config :=
  { tasks := [], configs := [], variants := [("A", [])], evals := [] }

/-- C8 is false as universally stated: the filter check sits at the
top of the per-task loop (line 154), so a declaration that declares
variants but lists NO tasks never validates the filter -- the run with
`--variant X` completes with no error and an empty plan. -/
theorem CcBench.variant_filter_unchecked_without_tasks :
    CcBench.runMain [] [] CcBench.c8Cfg (some "X") = ([], none) ∧
    CcBench.planTasks CcBench.c8Cfg (some "X") = .ok [] :=
  ⟨rfl, rfl⟩

/-- C8 amended (restricted to declarations listing at least one
task): an unmatched variant filter aborts at the first task iteration,
before any materialization event, and the error carries exactly the
declared variant names in declaration order. -/
theorem CcBench.variant_filter_not_found (forge tasksPool : CcBench.Pool)
    (cfg : CcBench.Config) (v t : String) (ts : List String)
    (htasks : cfg.tasks = t :: ts) (hvar : cfg.variants ≠ [])
    (hmatch : cfg.variants.filter (fun p => p.1 == v) = []) :
    CcBench.runMain forge tasksPool cfg (some v) =
      ([], some (.variantNotFound v (cfg.variants.map Prod.fst))) := by
  rw [CcBench.runMain, htasks]
  simp [CcBench.runTasks, CcBench.determineVariants, hvar, hmatch]

/-- Witness for the amended C8: declared variants A, B; filter X; the
message line enumerates exactly "A, B". -/
theorem CcBench.variant_filter_not_found_witness :
    (({ tasks := ["t1"], configs := [], variants := [("A", []), ("B", [])],
        evals := [] } : CcBench.Config).tasks = "t1" :: []) ∧
    (({ tasks := ["t1"], configs := [], variants := [("A", []), ("B", [])],
        evals := [] } : CcBench.Config).variants ≠ []) ∧
    (({ tasks := ["t1"], configs := [], variants := [("A", []), ("B", [])],
        evals := [] } : CcBench.Config).variants.filter (fun p => p.1 == "X") = []) ∧
    CcBench.runMain [] []
        { tasks := ["t1"], configs := [], variants := [("A", []), ("B", [])], evals := [] }
        (some "X") =
      ([], some (.variantNotFound "X" ["A", "B"])) ∧
    CcBench.availableVariantsLine ["A", "B"] = "Available variants: A, B" :=
  ⟨rfl, by decide, rfl,
    CcBench.variant_filter_not_found [] [] _ "X" "t1" [] rfl (by decide) rfl, rfl⟩

/-! ## Claim C10 -/

/-- C10: with an empty tasks list the variant filter is never
validated: any `--variant` value (declared or not, variants or not)
yields a completed run with no events (an empty tasks directory). -/
theorem CcBench.empty_tasks_skip_variant_validation (forge tasksPool : CcBench.Pool)
    (cfg : CcBench.Config) (varg : Option String) (h : cfg.tasks = []) :
    CcBench.runMain forge tasksPool cfg varg = ([], none) := by
  rw [CcBench.runMain, h]
  rfl

/-- Witness for C10: variants declared, filter names an undeclared
variant, tasks empty -- the run still completes. -/
theorem CcBench.empty_tasks_skip_variant_validation_witness :
    (({ tasks := [], configs := ["c"], variants := [("A", [])],
        evals := ["e"] } : CcBench.Config).tasks = []) ∧
    CcBench.runMain [] []
        { tasks := [], configs := ["c"], variants := [("A", [])], evals := ["e"] }
        (some "X") =
      ([], none) :=
  ⟨rfl, CcBench.empty_tasks_skip_variant_validation [] [] _ (some "X") rfl⟩

/-! ## Claim C9 -/

namespace CcBench

theorem execEvents_exec (dir : String) (p : Proj) (evalsL : List String) :
    ∀ ev ∈ execEvents dir p evalsL, isExec ev = true ∧ isManifestEvent ev = false := by
  intro ev hev
  cases hs : findVal p "setup.sh" with
  | none =>
    simp only [execEvents, hs, List.mem_append, List.mem_cons, List.not_mem_nil, or_false,
      false_or, List.mem_map, List.mem_singleton] at hev
    rcases hev with ((rfl | rfl) | rfl) | ⟨e, _, rfl⟩ <;> exact ⟨rfl, rfl⟩
  | some c =>
    simp only [execEvents, hs, List.mem_append, List.mem_cons, List.not_mem_nil, or_false,
      false_or, List.mem_map, List.mem_singleton] at hev
    rcases hev with (((rfl | rfl) | rfl) | rfl) | ⟨e, _, rfl⟩ <;> exact ⟨rfl, rfl⟩

end CcBench

/-- C9: a task whose materialization completes (project built, run.sh
and prompt.md present) gets exactly one manifest write: it happens after
both control files are relocated out of the project, before any external
command of that task, and its content is every remaining top-level
project entry as `project/<name>` relative to the task root, one per
line, with a trailing newline -- run.sh and prompt.md excluded. -/
theorem CcBench.manifest_once_after_relocation_before_scripts
    (forge tasksPool : CcBench.Pool) (baseCfgs evalsL : List String) (task vn : String)
    (vcfgs : List String) (evsM : List CcBench.Event) (p3 : CcBench.Proj)
    (c1 c2 : CcBench.FileContent)
    (hm : CcBench.materializeTask forge tasksPool baseCfgs task vn vcfgs = (evsM, .ok p3))
    (hrs : CcBench.findVal p3 "run.sh" = some c1)
    (hpm : CcBench.findVal (CcBench.removeName p3 "run.sh") "prompt.md" = some c2) :
    ∃ pre post,
      (CcBench.runTask forge tasksPool baseCfgs evalsL task vn vcfgs).1 =
        pre ++
          [.writeManifest (CcBench.taskDirName task vn)
              (CcBench.manifestText
                (CcBench.removeName (CcBench.removeName p3 "run.sh") "prompt.md"))] ++
          post ∧
      .relocate (CcBench.taskDirName task vn) "run.sh" ∈ pre ∧
      .relocate (CcBench.taskDirName task vn) "prompt.md" ∈ pre ∧
      (∀ ev ∈ pre, CcBench.isExec ev = false ∧ CcBench.isManifestEvent ev = false) ∧
      (∀ ev ∈ post, CcBench.isManifestEvent ev = false) ∧
      CcBench.findVal (CcBench.removeName (CcBench.removeName p3 "run.sh") "prompt.md")
          "run.sh" = none ∧
      CcBench.findVal (CcBench.removeName (CcBench.removeName p3 "run.sh") "prompt.md")
          "prompt.md" = none ∧
      CcBench.manifestText (CcBench.removeName (CcBench.removeName p3 "run.sh") "prompt.md") =
        String.intercalate "\n"
            ((CcBench.removeName (CcBench.removeName p3 "run.sh") "prompt.md").map
              (fun p => "project/" ++ p.1)) ++
          "\n" := by
  have hc := CcBench.checkAndRun_success (CcBench.taskDirName task vn) p3 evalsL hrs hpm
  refine
    ⟨evsM ++
        [.relocate (CcBench.taskDirName task vn) "run.sh",
          .relocate (CcBench.taskDirName task vn) "prompt.md"],
      CcBench.execEvents (CcBench.taskDirName task vn)
        (CcBench.removeName (CcBench.removeName p3 "run.sh") "prompt.md") evalsL,
      ?_, ?_, ?_, ?_, ?_, ?_, ?_, ?_⟩
  · simp only [CcBench.runTask, hm, hc]
    simp [List.append_assoc]
  · simp
  · simp
  · intro ev hev
    rcases List.mem_append.mp hev with h' | h'
    · obtain ⟨n, rfl⟩ :=
        CcBench.materializeTask_events _ _ _ _ _ _ ev (by rw [hm]; exact h')
      exact ⟨rfl, rfl⟩
    · rcases List.mem_cons.mp h' with rfl | h''
      · exact ⟨rfl, rfl⟩
      · obtain rfl := List.mem_singleton.mp h''
        exact ⟨rfl, rfl⟩
  · intro ev hev
    exact (CcBench.execEvents_exec _ _ _ ev hev).2
  · rw [CcBench.findVal_removeName_ne _ (by decide)]
    exact CcBench.findVal_removeName_self _ _
  · exact CcBench.findVal_removeName_self _ _
  · rfl

/-- Witness for C9: one task providing run.sh, prompt.md and a data
file; the manifest names exactly `project/data.txt`. -/
theorem CcBench.manifest_once_witness :
    CcBench.materializeTask []
        [("t", [⟨"run.sh", .malformed "#r"⟩, ⟨"prompt.md", .malformed "#p"⟩,
          ⟨"data.txt", .malformed "d"⟩])] [] "t" "" [] =
      ([.materializeFile "t" "run.sh", .materializeFile "t" "prompt.md",
          .materializeFile "t" "data.txt"],
        .ok [("run.sh", .malformed "#r"), ("prompt.md", .malformed "#p"),
          ("data.txt", .malformed "d")]) ∧
    CcBench.findVal
        ([("run.sh", .malformed "#r"), ("prompt.md", .malformed "#p"),
          ("data.txt", .malformed "d")] : CcBench.Proj) "run.sh" =
      some (.malformed "#r") ∧
    CcBench.findVal
        (CcBench.removeName
          [("run.sh", .malformed "#r"), ("prompt.md", .malformed "#p"),
            ("data.txt", .malformed "d")] "run.sh") "prompt.md" =
      some (.malformed "#p") ∧
    (∃ pre post,
      (CcBench.runTask []
          [("t", [⟨"run.sh", .malformed "#r"⟩, ⟨"prompt.md", .malformed "#p"⟩,
            ⟨"data.txt", .malformed "d"⟩])] [] [] "t" "" []).1 =
        pre ++
          [.writeManifest (CcBench.taskDirName "t" "")
              (CcBench.manifestText
                (CcBench.removeName
                  (CcBench.removeName
                    [("run.sh", .malformed "#r"), ("prompt.md", .malformed "#p"),
                      ("data.txt", .malformed "d")] "run.sh") "prompt.md"))] ++
          post ∧
      .relocate (CcBench.taskDirName "t" "") "run.sh" ∈ pre ∧
      .relocate (CcBench.taskDirName "t" "") "prompt.md" ∈ pre ∧
      (∀ ev ∈ pre, CcBench.isExec ev = false ∧ CcBench.isManifestEvent ev = false) ∧
      (∀ ev ∈ post, CcBench.isManifestEvent ev = false) ∧
      CcBench.findVal
          (CcBench.removeName
            (CcBench.removeName
              [("run.sh", .malformed "#r"), ("prompt.md", .malformed "#p"),
                ("data.txt", .malformed "d")] "run.sh") "prompt.md") "run.sh" = none ∧
      CcBench.findVal
          (CcBench.removeName
            (CcBench.removeName
              [("run.sh", .malformed "#r"), ("prompt.md", .malformed "#p"),
                ("data.txt", .malformed "d")] "run.sh") "prompt.md") "prompt.md" = none ∧
      CcBench.manifestText
          (CcBench.removeName
            (CcBench.removeName
              [("run.sh", .malformed "#r"), ("prompt.md", .malformed "#p"),
                ("data.txt", .malformed "d")] "run.sh") "prompt.md") =
        String.intercalate "\n"
            ((CcBench.removeName
                (CcBench.removeName
                  [("run.sh", .malformed "#r"), ("prompt.md", .malformed "#p"),
                    ("data.txt", .malformed "d")] "run.sh") "prompt.md").map
              (fun p => "project/" ++ p.1)) ++
          "\n") ∧
    CcBench.manifestText ([("data.txt", .malformed "d")] : CcBench.Proj) =
      "project/data.txt\n" :=
  ⟨rfl, rfl, rfl,
    CcBench.manifest_once_after_relocation_before_scripts [] _ [] [] "t" "" [] _ _ _ _
      rfl rfl rfl,
    rfl⟩
